import Mathlib

/-!
Verification of the PowerTag sampling / decode / alert engine (`main.py`).

The Python program is shallowly embedded: numeric register values are exact
rationals, Python `None` is `Option.none` or an explicit `PyVal.null`,
exceptions are `Except.error`, and the mutable per-key caches become explicit
state-passing step functions.  Each embedded definition mirrors one function
or code block of the source; the theorems below settle the specification
claims against these definitions.
-/

/-- Value stored in a readings row: Python `None`, a number, or a string.
Numbers are modelled as exact rationals. -/
inductive PyVal where
  | null : PyVal
  | num : ℚ → PyVal
  | str : String → PyVal
deriving DecidableEq

/-- Python truthiness for the values a readings row can hold:
`None` is falsy, a number is truthy iff nonzero, a string iff nonempty. -/
def pyTruthy : PyVal → Bool
  | PyVal.null => false
  | PyVal.num q => decide (q ≠ 0)
  | PyVal.str s => decide (s ≠ ("" : String))

/-- Alert thresholds, mirroring the `thresholds` block of the settings. -/
structure Thresholds where
  voltageLow : ℚ
  voltageHigh : ℚ
  currentHigh : ℚ
deriving DecidableEq

/-- An alert message, abstracting the formatted strings built by `CheckAlerts`
(`HIGH VOLTAGE: {v}V`, `LOW VOLTAGE: {v}V`, `HIGH CURRENT: {c}A`); each
carries the offending value. -/
inductive Alert where
  | highVoltage : ℚ → Alert
  | lowVoltage : ℚ → Alert
  | highCurrent : ℚ → Alert
deriving DecidableEq

/-- The part of a readings row that `CheckAlerts` consults: the entries under
the keys `voltage` and `current`.  `Option.none` means the key is absent from
the row; `some PyVal.null` means the key is present with value `None`. -/
structure Readings where
  voltage : Option PyVal
  current : Option PyVal
deriving DecidableEq

/-- The voltage branch of `CheckAlerts` (main.py lines 218-220):
`if voltage:` then compare with the high and low thresholds.  Comparing a
non-numeric truthy value against a float raises a `TypeError`, modelled as
`Except.error`. -/
def voltCheck (th : Thresholds) (v : PyVal) : Except Unit (List Alert) :=
  if pyTruthy v then
    match v with
    | PyVal.num q =>
        Except.ok
          (if q > th.voltageHigh then [Alert.highVoltage q]
           else if q < th.voltageLow then [Alert.lowVoltage q]
           else [])
    | _ => Except.error ()
  else Except.ok []

/-- The current branch of `CheckAlerts` (main.py lines 222-223):
`if current and current > thresholds.current.high`. -/
def currentCheck (th : Thresholds) (c : PyVal) : Except Unit (List Alert) :=
  if pyTruthy c then
    match c with
    | PyVal.num q =>
        Except.ok (if q > th.currentHigh then [Alert.highCurrent q] else [])
    | _ => Except.error ()
  else Except.ok []

/-- Embedding of `CheckAlerts(readings)` (main.py lines 210-225).
`readings.get(key, "float")` yields the string `"float"` when the key is
absent.  The voltage branch runs first; an exception there aborts the call. -/
def CheckAlerts (th : Thresholds) (r : Readings) : Except Unit (List Alert) :=
  match voltCheck th ((r.voltage).getD (PyVal.str ("float"))) with
  | Except.error e => Except.error e
  | Except.ok va =>
      match currentCheck th ((r.current).getD (PyVal.str ("float"))) with
      | Except.error e => Except.error e
      | Except.ok ca => Except.ok (va ++ ca)

/-- A readings row as `Run` assembles it when the schema holds the keys
`voltage` and `current`: both keys present, each value a number or `None`. -/
def mkReadings (v c : Option ℚ) : Readings :=
  Readings.mk (some (Option.elim v PyVal.null PyVal.num))
    (some (Option.elim c PyVal.null PyVal.num))

/-- Modelled from the claim C1 wording: emit a high-voltage alert exactly when
the voltage is present and strictly above the high threshold, else a
low-voltage alert exactly when present and strictly below the low threshold;
a high-current alert exactly when the current is present and strictly above
its threshold. -/
def specCheckAlertsC1 (th : Thresholds) (voltage current : Option ℚ) : List Alert :=
  (match voltage with
   | some v =>
       if v > th.voltageHigh then [Alert.highVoltage v]
       else if v < th.voltageLow then [Alert.lowVoltage v]
       else []
   | none => []) ++
  (match current with
   | some c => if c > th.currentHigh then [Alert.highCurrent c] else []
   | none => [])

/-- The amended C1 behaviour: identical to the claim except that a present
value equal to 0 is falsy in Python and therefore produces no alert. -/
def amendedCheckAlertsC1 (th : Thresholds) (voltage current : Option ℚ) : List Alert :=
  (match voltage with
   | some v =>
       if v ≠ 0 ∧ v > th.voltageHigh then [Alert.highVoltage v]
       else if v ≠ 0 ∧ v < th.voltageLow then [Alert.lowVoltage v]
       else []
   | none => []) ++
  (match current with
   | some c => if c ≠ 0 ∧ c > th.currentHigh then [Alert.highCurrent c] else []
   | none => [])

/-- A 32-bit IEEE-754 value: finite values carried exactly as rationals,
plus the infinities (flag true means negative) and NaN. -/
inductive F32 where
  | finite : ℚ → F32
  | infinity : Bool → F32
  | nan : F32
deriving DecidableEq

/-- Interpretation of a 32-bit pattern as an IEEE-754 single-precision value
(sign bit 31, 8 exponent bits, 23 mantissa bits). -/
def f32OfBits (bits : ℕ) : F32 :=
  let s : ℕ := bits / 2 ^ 31 % 2
  let e : ℕ := bits / 2 ^ 23 % 2 ^ 8
  let m : ℕ := bits % 2 ^ 23
  let sign : ℚ := if s = 1 then -1 else 1
  if e = 255 then (if m = 0 then F32.infinity (s = 1) else F32.nan)
  else if e = 0 then F32.finite (sign * (m : ℚ) / 2 ^ 149)
  else F32.finite (sign * ((2 : ℚ) ^ 23 + (m : ℚ)) * 2 ^ e / 2 ^ 150)

/-- Round to the nearest integer, ties to even — the rounding Python's
built-in `round` applies. -/
def roundHalfEven (x : ℚ) : ℤ :=
  let f := Int.floor x
  if x - f < 1 / 2 then f
  else if x - f > 1 / 2 then f + 1
  else if f % 2 = 0 then f else f + 1

/-- Python `round(x, 2)` on the exact rational value of a float. -/
def pyRound2 (x : ℚ) : ℚ := (roundHalfEven (x * 100) : ℚ) / 100

/-- Python `round(v, 2)` on a float value: rounds finite values, and leaves
the infinities and NaN unchanged. -/
def roundF32 : F32 → F32
  | F32.finite q => F32.finite (pyRound2 q)
  | F32.infinity b => F32.infinity b
  | F32.nan => F32.nan

/-- The two bytes `struct.pack` produces for one 16-bit word, high byte
first — also the bytes `ReadAscii` appends via `(reg >> 8) & 0xFF, reg & 0xFF`. -/
def wordBytes (r : ℕ) : List ℕ := [r / 256 % 256, r % 256]

/-- Big-endian interpretation of a byte list, as `struct.unpack` with a
big-endian format reads the packed buffer. -/
def beBytesToBits (bs : List ℕ) : ℕ := bs.foldl (fun acc b => acc * 256 + b % 256) 0

/-- Embedding of `ModbusReader.ReadFloat` (main.py lines 173-176) applied to
the outcome of its inner `ReadRegisters` call: `None` and the empty list are
falsy and give `None`; otherwise `registers[0]` and `registers[1]` are packed
as two big-endian words and unpacked as a big-endian IEEE-754 single, rounded
to 2 decimals.  A one-element list passes the falsy test and `registers[1]`
raises an `IndexError`, modelled as `Except.error`. -/
def ReadFloat (rr : Option (List ℕ)) : Except Unit (Option F32) :=
  match rr with
  | none => Except.ok none
  | some [] => Except.ok none
  | some [_] => Except.error ()
  | some (r0 :: r1 :: _) =>
      Except.ok (some (roundF32 (f32OfBits (beBytesToBits (wordBytes r0 ++ wordBytes r1)))))

/-- Modelled from the claim C2 wording: the two 16-bit words are the
big-endian bytes of one 32-bit IEEE-754 float, word 0 supplying the high
bytes and word 1 the low bytes. -/
def specFloatDecode (w0 w1 : ℕ) : F32 := f32OfBits (w0 * 2 ^ 16 + w1)

/-- One observable effect of the cycle loop in `Run` (main.py lines 261-310),
tagged with the entity name where relevant. -/
inductive Ev where
  | assemble : String → Ev
  | logRow : String → Ev
  | alertCheck : String → Ev
  | publish : Ev
deriving DecidableEq

/-- The effects the body of the `for tagInfo in powertags` loop performs for
one entity (main.py lines 261-306): assemble the row, append it to the CSV
log, then run the alert check. -/
def tagEvents (t : String) : List Ev := [Ev.assemble t, Ev.logRow t, Ev.alertCheck t]

/-- The effect trace of one complete cycle of `Run`: the per-entity loop in
order, followed by the single snapshot replacement
`latestReadings = currentCycleData` (main.py line 309). -/
def cycleTrace (tags : List String) : List Ev :=
  tags.foldl (fun acc t => acc ++ tagEvents t) [] ++ [Ev.publish]

/-- Modelled from the claim C3 wording: first all rows are assembled, then
the snapshot is replaced, then each row goes to the log sink, then each row
goes to the alert engine. -/
def specCycleTraceC3 (tags : List String) : List Ev :=
  tags.map Ev.assemble ++ [Ev.publish] ++ tags.map Ev.logRow ++ tags.map Ev.alertCheck

/-- A row of one cycle: entity name, the cycle timestamp `cycleStart`, and
the decoded register values (main.py line 266 and the register loop). -/
structure Row where
  tag : String
  timestamp : ℚ
  values : List (String × PyVal)
deriving DecidableEq

/-- Assembly of `currentRow` for one entity: the row carries the cycle's
start time as its timestamp. -/
def buildRow (ts : ℚ) (tag : String) (vals : List (String × PyVal)) : Row :=
  Row.mk tag ts vals

/-- The mapping published into `latestReadings` at the end of one cycle:
one row per monitored entity, every row stamped with this cycle's start
time (main.py lines 259-309). -/
def cycleSnapshot (ts : ℚ) (tags : List String) (vals : String → List (String × PyVal)) :
    List (String × Row) :=
  tags.map (fun t => (t, buildRow ts t (vals t)))

/-- State of the ascii cache for one `(entity, register)` key: the entries of
`lastKnownValues` and `lastReadTime` under that key (`none` when the dict has
no entry). -/
structure AsciiCacheState where
  lastKnown : Option String
  lastRead : Option ℚ
deriving DecidableEq

/-- Embedding of the ascii branch of the register loop in `Run`
(main.py lines 278-285) for one key.  `readResult` is the value
`ReadAscii` would return if invoked (`none` for a failed read).  Returns the
new cache state, the value assigned to the row, and whether the underlying
`ReadAscii` call was made.  `lastReadTime.get(cacheKey, 0)` defaults a
missing entry to 0; the cache is updated only when the fresh value is truthy
(non-`None` and nonempty); the row value is `lastKnownValues.get(cacheKey,
"Unknown")` evaluated after the potential update. -/
def asciiStep (interval now : ℚ) (readResult : Option String) (s : AsciiCacheState) :
    AsciiCacheState × String × Bool :=
  if now - ((s.lastRead).getD 0) > interval then
    let s2 : AsciiCacheState :=
      match readResult with
      | some v => if v ≠ ("" : String) then AsciiCacheState.mk (some v) (some now) else s
      | none => s
    (s2, (s2.lastKnown).getD ("Unknown"), true)
  else (s, (s.lastKnown).getD ("Unknown"), false)

/-- One attempt against the modbus client, as `ReadRegisters` observes it:
a truthy non-error response carrying a register list, a falsy or error
response, or a raised exception. -/
inductive ModbusResponse where
  | ok : List ℕ → ModbusResponse
  | errResponse : ModbusResponse
  | exn : ModbusResponse
deriving DecidableEq

/-- The retry loop of `ModbusReader.ReadRegisters` (main.py lines 158-171):
`n` attempts remain and the next attempt has index `i` in `client`.  Returns
the result (`registers[:count]` of the first good response, else `None`),
the number of attempts made, and the number of `time.sleep(delay)` calls
(one after every failed or raised attempt, none after a success). -/
def readRegistersAux (client : ℕ → ModbusResponse) (count : ℕ) :
    ℕ → ℕ → Option (List ℕ) × ℕ × ℕ
  | 0, _ => (none, 0, 0)
  | Nat.succ n, i =>
      match client i with
      | ModbusResponse.ok regs => (some (regs.take count), 1, 0)
      | _ =>
          let r := readRegistersAux client count n (i + 1)
          (r.1, r.2.1 + 1, r.2.2 + 1)

/-- Embedding of `ModbusReader.ReadRegisters` with the configured retry
count: the loop `for _ in range(self.retries)` starting at attempt 0. -/
def ReadRegisters (retries count : ℕ) (client : ℕ → ModbusResponse) :
    Option (List ℕ) × ℕ × ℕ :=
  readRegistersAux client count retries 0

/-- Embedding of the alert dispatch block of `Run` (main.py lines 298-306)
for one entity and one cycle.  `alerts` is the `CheckAlerts` result, `last`
the entity's entry in `lastAlertTime` (`none` when absent, defaulted to 0 by
`.get(tagName, 0)`).  Returns the new `lastAlertTime` entry and the dispatched
notification: one event carrying all of the cycle's messages, or `none` when
nothing is sent. -/
def alertStep (cooldown now : ℚ) (alerts : List Alert) (last : Option ℚ) :
    Option ℚ × Option (List Alert) :=
  if alerts ≠ [] ∧ now - ((last).getD 0) > cooldown then (some now, some alerts)
  else (last, none)

/-- Modelled from the claim C8 wording: dispatch is gated by
`cycleTimestamp - lastAlertTimestamp > cooldown`, with no prior alert
counting as infinitely old, hence never suppressing. -/
def specCooldownGateC8 (last : Option ℚ) (now cooldown : ℚ) : Bool :=
  match last with
  | none => true
  | some t => decide (now - t > cooldown)

/-- Strip trailing zero bytes, as `bytearray.rstrip(b"\x00")` does. -/
def rstripZeros (bs : List ℕ) : List ℕ :=
  ((bs.reverse).dropWhile (fun b => b == 0)).reverse

/-- Python `bytes.decode("ascii", errors="ignore")`: bytes below 128 become
characters, all others are dropped. -/
def asciiDecodeIgnore (bs : List ℕ) : String :=
  String.mk ((bs.filter (fun b => decide (b < 128))).map Char.ofNat)

/-- Embedding of `ModbusReader.ReadAscii` (main.py lines 178-184) applied to
the outcome of its inner `ReadRegisters` call: `None` and the empty list are
falsy and give `None`; otherwise each word contributes its high byte then its
low byte, trailing zero bytes are stripped, and the rest is decoded as ASCII
with undecodable bytes ignored. -/
def ReadAscii (rr : Option (List ℕ)) : Option String :=
  match rr with
  | none => none
  | some [] => none
  | some regs =>
      some (asciiDecodeIgnore (rstripZeros (regs.foldl (fun acc r => acc ++ wordBytes r) [])))

/-- Modelled from the claim C9 wording: append each word's high byte then low
byte to a buffer, strip trailing zero bytes, and decode as ASCII with every
non-ASCII byte silently dropped. -/
def specTextDecodeC9 (regs : List ℕ) : String :=
  String.mk
    (((((regs.flatMap wordBytes).reverse).dropWhile (fun b => b == 0)).reverse).filterMap
      (fun b => if b < 128 then some (Char.ofNat b) else none))

/-- The two register regions of the fieldbus protocol. -/
inductive RegionKind where
  | input : RegionKind
  | holding : RegionKind
deriving DecidableEq

/-- The region `ReadRegisters` reads from, chosen by its `registerType`
string argument: `if registerType == "input"` read input registers, else
read holding registers (main.py lines 161-164). -/
def regionSelected (registerType : String) : RegionKind :=
  if registerType = ("input" : String) then RegionKind.input else RegionKind.holding

/-- The `registerType` argument `ReadFloat` passes to `ReadRegisters`
(main.py line 174). -/
def readFloatRegionArg : String := "input"

/-- The `registerType` argument `ReadAscii` passes to `ReadRegisters`
(main.py line 179). -/
def readAsciiRegionArg : String := "holding"

/-- One entry of the configured register map.  The code reads the keys
`register`, `type` and `length`; the `region` field is modelled from the
spec (a RegisterDefinition's declared region kind) and is never consulted
by the code. -/
structure RegisterConfig where
  register : ℕ
  type : String
  length : ℕ
  region : RegionKind
deriving DecidableEq

/-- The region the register loop of `Run` (main.py lines 269-289) requests
for one register definition: the `float` branch calls `ReadFloat`, the
`ascii` branch calls `ReadAscii`, any other encoding performs no read. -/
def runRegionRequested (cfg : RegisterConfig) : Option RegionKind :=
  if cfg.type = ("float" : String) then some (regionSelected readFloatRegionArg)
  else if cfg.type = ("ascii" : String) then some (regionSelected readAsciiRegionArg)
  else none

/-- Helper: the voltage branch on a `None` value emits nothing. -/
theorem voltCheck_null (th : Thresholds) : voltCheck th PyVal.null = Except.ok [] := rfl

/-- Helper: the voltage branch on a numeric value, with Python's truthiness
made explicit as a nonzero condition. -/
theorem voltCheck_num (th : Thresholds) (q : ℚ) :
    voltCheck th (PyVal.num q) =
      Except.ok
        (if q ≠ 0 ∧ q > th.voltageHigh then [Alert.highVoltage q]
         else if q ≠ 0 ∧ q < th.voltageLow then [Alert.lowVoltage q]
         else []) := by
  by_cases h : q = 0
  · subst h; simp [voltCheck, pyTruthy]
  · simp [voltCheck, pyTruthy, h]

/-- Helper: the current branch on a `None` value emits nothing. -/
theorem currentCheck_null (th : Thresholds) : currentCheck th PyVal.null = Except.ok [] := rfl

/-- Helper: the current branch on a numeric value, with Python's truthiness
made explicit as a nonzero condition. -/
theorem currentCheck_num (th : Thresholds) (q : ℚ) :
    currentCheck th (PyVal.num q) =
      Except.ok (if q ≠ 0 ∧ q > th.currentHigh then [Alert.highCurrent q] else []) := by
  by_cases h : q = 0
  · subst h; simp [currentCheck, pyTruthy]
  · simp [currentCheck, pyTruthy, h]

/-- C1, counterexample: a present voltage reading of exactly 0 is strictly
below the low threshold 200, so the claim requires a low-voltage alert, but
`if voltage:` treats 0.0 as falsy and `CheckAlerts` emits nothing. -/
theorem C1_counterexample :
    CheckAlerts (Thresholds.mk 200 250 1) (mkReadings (some 0) (some 1)) = Except.ok [] ∧
    specCheckAlertsC1 (Thresholds.mk 200 250 1) (some 0) (some 1) = [Alert.lowVoltage 0] := by
  refine ⟨by rfl, by rfl⟩

/-- C1, amended: for every row holding numeric-or-null voltage and current
entries, `CheckAlerts` raises nothing and emits exactly the claimed alerts,
except that a present value equal to 0 is falsy in Python and produces no
alert; boundary values and absent values produce no alert. -/
theorem C1_amended (th : Thresholds) (v c : Option ℚ) :
    CheckAlerts th (mkReadings v c) = Except.ok (amendedCheckAlertsC1 th v c) := by
  cases v with
  | none =>
      cases c with
      | none =>
          simp [CheckAlerts, mkReadings, amendedCheckAlertsC1, Option.elim,
            voltCheck_null th, currentCheck_null th]
      | some qc =>
          simp [CheckAlerts, mkReadings, amendedCheckAlertsC1, Option.elim,
            voltCheck_null th, currentCheck_num th qc]
  | some qv =>
      cases c with
      | none =>
          simp [CheckAlerts, mkReadings, amendedCheckAlertsC1, Option.elim,
            voltCheck_num th qv, currentCheck_null th]
      | some qc =>
          simp [CheckAlerts, mkReadings, amendedCheckAlertsC1, Option.elim,
            voltCheck_num th qv, currentCheck_num th qc]

/-- C2, counterexample: a read that returned exactly one word (here the high
word of 1.5) passes the falsy test, and `registers[1]` raises an
`IndexError` instead of returning `None` as the claim requires. -/
theorem C2_counterexample : ReadFloat (some [16320]) = Except.error () := rfl

/-- C2, amended: a failed read or an empty word list yields `None`, and a
read of at least two words decodes the first two words as big-endian bytes
of a 32-bit IEEE-754 float (word 0 high, word 1 low), rounded to 2 decimals;
however a read of exactly one word raises an index error. -/
theorem C2_amended (r0 r1 : ℕ) (rest : List ℕ) (h0 : r0 < 2 ^ 16) (h1 : r1 < 2 ^ 16) :
    ReadFloat none = Except.ok none ∧
    ReadFloat (some []) = Except.ok none ∧
    ReadFloat (some (r0 :: r1 :: rest)) = Except.ok (some (roundF32 (specFloatDecode r0 r1))) := by
  refine ⟨rfl, rfl, ?_⟩
  have hb : beBytesToBits (wordBytes r0 ++ wordBytes r1) = r0 * 2 ^ 16 + r1 := by
    simp [beBytesToBits, wordBytes]
    omega
  simp [ReadFloat, specFloatDecode, hb]

/-- C2, witness: the amended theorem evaluated at the two words encoding 1.5. -/
theorem C2_witness :
    ReadFloat (some [16320, 0]) = Except.ok (some (roundF32 (specFloatDecode 16320 0))) :=
  (C2_amended 16320 0 [] (by norm_num) (by norm_num)).2.2

/-- Helper: folding append over a list is the flattened map. -/
theorem foldl_append_flatMap {α β : Type} (f : α → List β) (l : List α) (acc : List β) :
    l.foldl (fun a t => a ++ f t) acc = acc ++ l.flatMap f := by
  induction l generalizing acc with
  | nil => simp
  | cons x xs ih => simp [List.foldl, ih]

/-- Helper: the per-entity phase of a cycle never replaces the snapshot. -/
theorem publish_not_mem_tagEvents (tags : List String) :
    Ev.publish ∉ tags.flatMap tagEvents := by
  simp [List.mem_flatMap, tagEvents]

/-- C3, counterexample: for a single entity the actual cycle trace assembles,
logs and alert-checks the row before the snapshot is replaced, while the
claimed order replaces the snapshot before any logging or alerting. -/
theorem C3_counterexample :
    cycleTrace [("PT1" : String)] ≠ specCycleTraceC3 [("PT1" : String)] := by
  decide

/-- C3, amended: each cycle processes the entities in order, and for each
entity it assembles the row, hands it to the log sink, and hands it to the
alert engine before moving to the next entity; the snapshot is replaced
exactly once, after all entities are processed, as the final step of the
cycle. -/
theorem C3_amended (tags : List String) :
    cycleTrace tags = tags.flatMap tagEvents ++ [Ev.publish] ∧
    Ev.publish ∉ tags.flatMap tagEvents := by
  constructor
  · unfold cycleTrace
    rw [foldl_append_flatMap tagEvents tags []]
    simp
  · exact publish_not_mem_tagEvents tags

/-- C4: the snapshot is replaced exactly once per cycle (a single publish
event in the cycle trace), and the published mapping is exactly the rows
assembled in that cycle, every one carrying that cycle's timestamp — a
reader never observes rows of two different cycles mixed. -/
theorem C4_snapshot (ts : ℚ) (tags : List String) (vals : String → List (String × PyVal)) :
    (cycleTrace tags).count Ev.publish = 1 ∧
    (∀ p ∈ cycleSnapshot ts tags vals, (p.2).timestamp = ts ∧ p.2 = buildRow ts p.1 (vals p.1)) := by
  constructor
  · unfold cycleTrace
    rw [foldl_append_flatMap tagEvents tags []]
    simp [List.count_append, List.count_eq_zero.mpr (publish_not_mem_tagEvents tags)]
  · intro p hp
    unfold cycleSnapshot at hp
    obtain ⟨t, _, rfl⟩ := List.mem_map.mp hp
    exact ⟨rfl, rfl⟩

/-- C4, witness: the snapshot theorem evaluated on a one-entity cycle at
timestamp 5. -/
theorem C4_snapshot_witness :
    (cycleTrace [("PT1" : String)]).count Ev.publish = 1 ∧
    (buildRow 5 ("PT1" : String) []).timestamp = 5 :=
  ⟨(C4_snapshot 5 [("PT1" : String)] (fun _ => [])).1,
    ((C4_snapshot 5 [("PT1" : String)] (fun _ => [])).2
      (("PT1" : String), buildRow 5 ("PT1" : String) []) (by simp [cycleSnapshot])).1⟩

/-- Helper: the value `asciiStep` hands to the row is always the value stored
in the resulting cache state, defaulted to the sentinel. -/
theorem asciiStep_val (interval now : ℚ) (r : Option String) (s : AsciiCacheState) :
    (asciiStep interval now r s).2.1 =
      (((asciiStep interval now r s).1).lastKnown).getD ("Unknown") := by
  unfold asciiStep
  by_cases h : now - ((s.lastRead).getD 0) > interval
  · simp [h]
  · simp [h]

/-- Helper: `asciiStep` invokes the underlying text read exactly when the
elapsed time since the recorded decode timestamp (0 when absent) exceeds the
refresh interval. -/
theorem asciiStep_trigger (interval now : ℚ) (r : Option String) (s : AsciiCacheState) :
    ((asciiStep interval now r s).2.2 = true ↔ now - ((s.lastRead).getD 0) > interval) := by
  unfold asciiStep
  by_cases h : now - ((s.lastRead).getD 0) > interval <;> simp [h]

/-- C5, counterexample: with refresh interval 600 and no prior entry, a
failed read at time 700 leaves the cache untouched, and the read at time 701
— one second later, well within the interval — triggers a second underlying
read, because a failed attempt never advances the recorded timestamp. -/
theorem C5_counterexample :
    (asciiStep 600 700 none (AsciiCacheState.mk none none)).2.2 = true ∧
    (asciiStep 600 700 none (AsciiCacheState.mk none none)).1 = AsciiCacheState.mk none none ∧
    (asciiStep 600 701 none (AsciiCacheState.mk none none)).2.2 = true := by
  refine ⟨by norm_num [asciiStep], by norm_num [asciiStep], by norm_num [asciiStep]⟩

/-- C5, amended: the cache triggers an underlying read exactly when the time
since the recorded decode timestamp (0 when no entry exists) exceeds the
refresh interval; consequently, whenever a cache read leaves the decode
timestamp equal to its own time — that is, after a successful non-empty
decode — a second read within the refresh interval triggers no underlying
read, returns the same value, and leaves the state unchanged.  A failed or
empty refresh does not advance the timestamp, so it may be retried within
the interval. -/
theorem C5_amended (iv t1 t2 : ℚ) (r1 r2 : Option String) (s0 s1 : AsciiCacheState)
    (v1 : String) (b1 : Bool)
    (hstep : asciiStep iv t1 r1 s0 = (s1, v1, b1))
    (hupd : s1.lastRead = some t1)
    (hwithin : t2 - t1 ≤ iv) :
    asciiStep iv t2 r2 s1 = (s1, v1, false) ∧
    ∀ now (r : Option String) (s : AsciiCacheState),
      ((asciiStep iv now r s).2.2 = true ↔ now - ((s.lastRead).getD 0) > iv) := by
  constructor
  · have hv : v1 = ((s1.lastKnown)).getD ("Unknown") := by
      have h := asciiStep_val iv t1 r1 s0
      rw [hstep] at h
      exact h
    have hng : ¬ (t2 - ((s1.lastRead).getD 0) > iv) := by
      rw [hupd]
      simpa using not_lt.mpr hwithin
    unfold asciiStep
    rw [if_neg hng, hv]
  · intro now r s
    exact asciiStep_trigger iv now r s

/-- C5, witness: a successful decode of `PT` at time 700 with interval 600,
then a read at time 800: no underlying read, same value, same state. -/
theorem C5_witness :
    asciiStep 600 800 (some ("ZZ")) (AsciiCacheState.mk (some ("PT")) (some 700)) =
      (AsciiCacheState.mk (some ("PT")) (some 700), ("PT" : String), false) :=
  (C5_amended 600 700 800 (some ("PT")) (some ("ZZ")) (AsciiCacheState.mk none none)
    (AsciiCacheState.mk (some ("PT")) (some 700)) ("PT") true
    (by norm_num [asciiStep]; decide) (by rfl) (by norm_num)).1

/-- C6: a cache entry's stored value changes only to a non-empty fresh
decode; a failed (`None`) or empty refresh leaves it untouched; whenever no
value is cached — including before any successful read — the row receives
the sentinel, which differs from the empty string (and, being a string, from
the null used for unavailable numeric registers). -/
theorem C6_cache_invariant (iv now : ℚ) (r : Option String) (s : AsciiCacheState) :
    (((asciiStep iv now r s).1).lastKnown = s.lastKnown ∨
      ∃ w, r = some w ∧ w ≠ ("" : String) ∧ ((asciiStep iv now r s).1).lastKnown = some w) ∧
    ((r = none ∨ r = some ("" : String)) →
      ((asciiStep iv now r s).1).lastKnown = s.lastKnown) ∧
    (((asciiStep iv now r s).1).lastKnown = none →
      (asciiStep iv now r s).2.1 = ("Unknown" : String)) ∧
    ("Unknown" : String) ≠ ("" : String) := by
  refine ⟨?_, ?_, ?_, by decide⟩
  · unfold asciiStep
    by_cases h : now - ((s.lastRead).getD 0) > iv
    · cases r with
      | none => simp [h]
      | some w =>
          by_cases hw : w = ("" : String)
          · subst hw; simp [h]
          · exact Or.inr ⟨w, rfl, hw, by simp [h, hw]⟩
    · simp [h]
  · intro hr
    unfold asciiStep
    by_cases h : now - ((s.lastRead).getD 0) > iv
    · rcases hr with rfl | rfl
      · simp [h]
      · simp [h]
    · simp [h]
  · intro hnone
    rw [asciiStep_val iv now r s, hnone]
    rfl

/-- C6, witness: with no prior entry and a failed first read, the row
receives the sentinel value. -/
theorem C6_witness :
    (asciiStep 600 700 none (AsciiCacheState.mk none none)).2.1 = ("Unknown" : String) :=
  (C6_cache_invariant 600 700 none (AsciiCacheState.mk none none)).2.2.1
    (by norm_num [asciiStep])

/-- Helper: the retry loop makes at most as many attempts as remain. -/
theorem readAux_attempts_le (client : ℕ → ModbusResponse) (count : ℕ) :
    ∀ n i, (readRegistersAux client count n i).2.1 ≤ n := by
  intro n
  induction n with
  | zero => intro i; simp [readRegistersAux]
  | succ n ih =>
      intro i
      cases h : client i with
      | ok regs => simp [readRegistersAux, h]
      | errResponse =>
          simp only [readRegistersAux, h]
          exact Nat.succ_le_succ (ih (i + 1))
      | exn =>
          simp only [readRegistersAux, h]
          exact Nat.succ_le_succ (ih (i + 1))

/-- Helper: when the loop exhausts its attempts, every attempt slept. -/
theorem readAux_none_sleeps (client : ℕ → ModbusResponse) (count : ℕ) :
    ∀ n i, (readRegistersAux client count n i).1 = none →
      (readRegistersAux client count n i).2.2 = (readRegistersAux client count n i).2.1 := by
  intro n
  induction n with
  | zero => intro i _; rfl
  | succ n ih =>
      intro i hnone
      cases h : client i with
      | ok regs => rw [readRegistersAux, h] at hnone; simp at hnone
      | errResponse =>
          rw [readRegistersAux, h] at hnone ⊢
          simp only at hnone ⊢
          rw [ih (i + 1) hnone]
      | exn =>
          rw [readRegistersAux, h] at hnone ⊢
          simp only at hnone ⊢
          rw [ih (i + 1) hnone]

/-- Helper: a successful result comes from the first good attempt: each
earlier attempt slept, and the returned list is that response truncated to
the requested count. -/
theorem readAux_some (client : ℕ → ModbusResponse) (count : ℕ) :
    ∀ n i l, (readRegistersAux client count n i).1 = some l →
      (readRegistersAux client count n i).2.2 + 1 = (readRegistersAux client count n i).2.1 ∧
      ∃ k regs, k < n ∧ client (i + k) = ModbusResponse.ok regs ∧ l = regs.take count := by
  intro n
  induction n with
  | zero => intro i l h; simp [readRegistersAux] at h
  | succ n ih =>
      intro i l hsome
      cases h : client i with
      | ok regs =>
          rw [readRegistersAux, h] at hsome ⊢
          simp only [Option.some.injEq] at hsome
          exact ⟨rfl, 0, regs, Nat.succ_pos n, by simpa using h, hsome.symm⟩
      | errResponse =>
          rw [readRegistersAux, h] at hsome ⊢
          simp only at hsome ⊢
          obtain ⟨hs, k, regs, hk, hc, hl⟩ := ih (i + 1) l hsome
          refine ⟨by omega, k + 1, regs, by omega, ?_, hl⟩
          rw [show i + (k + 1) = i + 1 + k by omega]
          exact hc
      | exn =>
          rw [readRegistersAux, h] at hsome ⊢
          simp only at hsome ⊢
          obtain ⟨hs, k, regs, hk, hc, hl⟩ := ih (i + 1) l hsome
          refine ⟨by omega, k + 1, regs, by omega, ?_, hl⟩
          rw [show i + (k + 1) = i + 1 + k by omega]
          exact hc

/-- Helper: if no attempt in range yields a good response, the loop reports
the explicit failure value. -/
theorem readAux_all_fail (client : ℕ → ModbusResponse) (count : ℕ) :
    ∀ n i, (∀ j, j < n → ∀ regs, client (i + j) ≠ ModbusResponse.ok regs) →
      (readRegistersAux client count n i).1 = none := by
  intro n
  induction n with
  | zero => intro i _; rfl
  | succ n ih =>
      intro i hall
      cases h : client i with
      | ok regs =>
          exact absurd h (by simpa using hall 0 (Nat.succ_pos n) regs)
      | errResponse =>
          rw [readRegistersAux, h]
          simp only
          exact ih (i + 1) (fun j hj regs => by
            rw [show i + 1 + j = i + (j + 1) by omega]
            exact hall (j + 1) (by omega) regs)
      | exn =>
          rw [readRegistersAux, h]
          simp only
          exact ih (i + 1) (fun j hj regs => by
            rw [show i + 1 + j = i + (j + 1) by omega]
            exact hall (j + 1) (by omega) regs)

/-- C7: the read is attempted at most `retries` times; every failed or
raised attempt is followed by one delay (so the delay sits between any
failed attempt and the next, and none follows a success); when every attempt
fails — including by raising — the caller receives the explicit `None`
result rather than an exception; and a returned word list is exactly the
first good response truncated to the requested count. -/
theorem C7_retry (retries count : ℕ) (client : ℕ → ModbusResponse) :
    (ReadRegisters retries count client).2.1 ≤ retries ∧
    ((ReadRegisters retries count client).1 = none →
      (ReadRegisters retries count client).2.2 = (ReadRegisters retries count client).2.1) ∧
    (∀ l, (ReadRegisters retries count client).1 = some l →
      (ReadRegisters retries count client).2.2 + 1 = (ReadRegisters retries count client).2.1 ∧
      ∃ k regs, k < retries ∧ client k = ModbusResponse.ok regs ∧ l = regs.take count) ∧
    ((∀ i, i < retries → ∀ regs, client i ≠ ModbusResponse.ok regs) →
      (ReadRegisters retries count client).1 = none) := by
  refine ⟨readAux_attempts_le client count retries 0,
    readAux_none_sleeps client count retries 0, ?_, ?_⟩
  · intro l hl
    obtain ⟨hs, k, regs, hk, hc, hl2⟩ := readAux_some client count retries 0 l hl
    exact ⟨hs, k, regs, hk, by simpa using hc, hl2⟩
  · intro hall
    exact readAux_all_fail client count retries 0 (fun j hj regs => by
      simpa using hall j hj regs)

/-- C7, witness: a client that always raises, with 3 retries: at most 3
attempts are made and the result is the explicit failure value. -/
theorem C7_retry_witness :
    (ReadRegisters 3 2 (fun _ => ModbusResponse.exn)).2.1 ≤ 3 ∧
    (ReadRegisters 3 2 (fun _ => ModbusResponse.exn)).1 = none :=
  ⟨(C7_retry 3 2 (fun _ => ModbusResponse.exn)).1,
    (C7_retry 3 2 (fun _ => ModbusResponse.exn)).2.2.2
      (fun _ _ _ h => ModbusResponse.noConfusion h)⟩

/-- C8, counterexample: cooldown 300, a violating cycle at timestamp 100 for
an entity with no prior alert.  The claim's gate ("no prior alert counts as
infinitely old") dispatches, but the code defaults the last-alert timestamp
to 0 and `100 - 0 > 300` fails, so nothing is dispatched. -/
theorem C8_counterexample :
    (alertStep 300 100 [Alert.highVoltage 260] none).2 = none ∧
    specCooldownGateC8 none 100 300 = true := by
  constructor
  · norm_num [alertStep]
  · rfl

/-- C8, amended: alerts are dispatched exactly when the cycle produced at
least one message and the cycle timestamp minus the entity's last-alert
timestamp — with no prior alert counting as timestamp 0, not as infinitely
old — strictly exceeds the cooldown; on dispatch all of the cycle's messages
go out as one notification event and the last-alert timestamp becomes the
cycle timestamp, and a suppressed cycle leaves it unchanged.  Hence (when the
first cycle's timestamp exceeds the cooldown) two consecutive violating
cycles within the cooldown window dispatch exactly once, and a third cycle
after the cooldown elapses dispatches a second time. -/
theorem C8_amended (cd t1 t2 t3 : ℚ) (a : List Alert)
    (ha : a ≠ []) (h1 : t1 > cd) (h2 : t2 - t1 ≤ cd) (h3 : t3 - t1 > cd) :
    (∀ (now : ℚ) (al : List Alert) (last : Option ℚ),
      ((alertStep cd now al last).2 ≠ none ↔ al ≠ [] ∧ now - ((last).getD 0) > cd) ∧
      ((alertStep cd now al last).2 = none → (alertStep cd now al last).1 = last) ∧
      (al ≠ [] → now - ((last).getD 0) > cd →
        alertStep cd now al last = (some now, some al))) ∧
    alertStep cd t1 a none = (some t1, some a) ∧
    alertStep cd t2 a (alertStep cd t1 a none).1 = (some t1, none) ∧
    alertStep cd t3 a (alertStep cd t2 a (alertStep cd t1 a none).1).1 = (some t3, some a) := by
  have hgen : ∀ (now : ℚ) (al : List Alert) (last : Option ℚ),
      ((alertStep cd now al last).2 ≠ none ↔ al ≠ [] ∧ now - ((last).getD 0) > cd) ∧
      ((alertStep cd now al last).2 = none → (alertStep cd now al last).1 = last) ∧
      (al ≠ [] → now - ((last).getD 0) > cd →
        alertStep cd now al last = (some now, some al)) := by
    intro now al last
    by_cases h : al ≠ [] ∧ now - ((last).getD 0) > cd
    · rw [alertStep, if_pos h]
      exact ⟨by simp [h], by simp, fun _ _ => rfl⟩
    · rw [alertStep, if_neg h]
      exact ⟨by simp [h], fun _ => rfl, fun hne hgt => absurd ⟨hne, hgt⟩ h⟩
  have s1 : alertStep cd t1 a none = (some t1, some a) :=
    (hgen t1 a none).2.2 ha (by simpa using h1)
  have s2 : alertStep cd t2 a (some t1) = (some t1, none) := by
    rw [alertStep, if_neg]
    rintro ⟨-, hgt⟩
    simp only [Option.getD_some] at hgt
    exact absurd h2 (not_le.mpr hgt)
  have s3 : alertStep cd t3 a (some t1) = (some t3, some a) :=
    (hgen t3 a (some t1)).2.2 ha (by simpa using h3)
  refine ⟨hgen, s1, ?_, ?_⟩
  · rw [s1]
    exact s2
  · rw [s1]
    simp only
    rw [s2]
    exact s3

/-- C8, witness: cooldown 300, violating cycles at timestamps 400, 500 and
800: dispatch, suppression, dispatch. -/
theorem C8_witness :
    alertStep 300 400 [Alert.highVoltage 260] none = (some 400, some [Alert.highVoltage 260]) ∧
    alertStep 300 500 [Alert.highVoltage 260] (some 400) = (some 400, none) ∧
    alertStep 300 800 [Alert.highVoltage 260] (some 400) = (some 800, some [Alert.highVoltage 260]) := by
  have h := C8_amended 300 400 500 800 [Alert.highVoltage 260]
    (by decide) (by norm_num) (by norm_num) (by norm_num)
  refine ⟨h.2.1, ?_, ?_⟩
  · have h2 := h.2.2.1
    rw [h.2.1] at h2
    exact h2
  · have h2 := h.2.2.1
    rw [h.2.1] at h2
    have h3 := h.2.2.2
    rw [h.2.1] at h3
    simp only at h3
    rw [h2] at h3
    simp only at h3
    exact h3

/-- Helper: keeping the bytes below 128 and mapping them to characters is
the same as filter-mapping each byte to its character when decodable. -/
theorem ascii_filter_eq_filterMap (bs : List ℕ) :
    (bs.filter (fun b => decide (b < 128))).map Char.ofNat
      = bs.filterMap (fun b => if b < 128 then some (Char.ofNat b) else none) := by
  induction bs with
  | nil => rfl
  | cons b bs ih =>
      by_cases h : b < 128 <;> simp [List.filter_cons, List.filterMap_cons, h, ih]

/-- Helper: stripping trailing zeros from an all-zero byte list empties it. -/
theorem rstripZeros_eq_nil (bs : List ℕ) (h : ∀ x ∈ bs, x = 0) : rstripZeros bs = [] := by
  unfold rstripZeros
  have hd : (bs.reverse).dropWhile (fun b => b == 0) = [] := by
    rw [List.dropWhile_eq_nil_iff]
    intro x hx
    simp [h x (List.mem_reverse.mp hx)]
  rw [hd]
  rfl

/-- C9, counterexample: a successful read that returned zero words is an
all-zero read, so the claim requires the empty string, but the zero-word
list is falsy and `ReadAscii` returns the no-value result instead. -/
theorem C9_counterexample :
    ReadAscii (some []) = none ∧ specTextDecodeC9 [] = ("" : String) := by
  refine ⟨rfl, ?_⟩
  rfl

/-- C9, amended: a failed read yields no value, and every successful read of
at least one word decodes exactly as the claim states — high byte then low
byte per word, trailing zero bytes stripped, ASCII decode with non-ASCII
bytes dropped, never raising — so a nonempty read of all-zero words yields
the empty string; a successful read of zero words, however, is treated as a
failed read and yields no value. -/
theorem C9_amended (r : ℕ) (rs : List ℕ) :
    ReadAscii none = none ∧
    ReadAscii (some (r :: rs)) = some (specTextDecodeC9 (r :: rs)) ∧
    ((∀ x ∈ r :: rs, x = 0) → ReadAscii (some (r :: rs)) = some ("" : String)) := by
  have hfold : (r :: rs).foldl (fun acc x => acc ++ wordBytes x) []
      = (r :: rs).flatMap wordBytes := by
    simpa using foldl_append_flatMap wordBytes (r :: rs) []
  have hread : ReadAscii (some (r :: rs)) =
      some (asciiDecodeIgnore (rstripZeros ((r :: rs).flatMap wordBytes))) := by
    rw [show ReadAscii (some (r :: rs)) = some (asciiDecodeIgnore
      (rstripZeros ((r :: rs).foldl (fun acc x => acc ++ wordBytes x) []))) from rfl, hfold]
  refine ⟨rfl, ?_, ?_⟩
  · rw [hread]
    unfold asciiDecodeIgnore specTextDecodeC9 rstripZeros
    rw [ascii_filter_eq_filterMap]
  · intro hz
    have hbz : ∀ b ∈ (r :: rs).flatMap wordBytes, b = 0 := by
      intro b hb
      obtain ⟨x, hx, hbx⟩ := List.mem_flatMap.mp hb
      have hx0 := hz x hx
      subst hx0
      simpa [wordBytes] using hbx
    rw [hread, rstripZeros_eq_nil _ hbz]
    rfl

/-- C9, witness: a two-word all-zero read decodes to the empty string, not
to a no-value or unknown result. -/
theorem C9_witness : ReadAscii (some [0, 0]) = some ("" : String) :=
  (C9_amended 0 [0]).2.2 (by simp)

/-- C10: the region requested for a register depends only on its encoding
kind — the declared region kind of the register definition is never
consulted: a floating-point decode always reads the input region and a text
decode always reads the holding region. -/
theorem C10_region (cfg : RegisterConfig) (rk : RegionKind) :
    runRegionRequested (RegisterConfig.mk cfg.register cfg.type cfg.length rk) =
      runRegionRequested cfg ∧
    (cfg.type = ("float" : String) → runRegionRequested cfg = some RegionKind.input) ∧
    (cfg.type = ("ascii" : String) → runRegionRequested cfg = some RegionKind.holding) := by
  refine ⟨rfl, ?_, ?_⟩
  · intro h
    simp [runRegionRequested, h, regionSelected, readFloatRegionArg]
  · intro h
    simp [runRegionRequested, h, regionSelected, readAsciiRegionArg, readFloatRegionArg]

/-- C10, witness: a float register whose definition declares the holding
region is still read from the input region. -/
theorem C10_region_witness :
    runRegionRequested (RegisterConfig.mk 3200 ("float") 2 RegionKind.holding) =
      some RegionKind.input :=
  (C10_region (RegisterConfig.mk 3200 ("float") 2 RegionKind.holding) RegionKind.input).2.1 rfl
